import Mathlib

/-!
Verification development for the `htmx-jsx` router (src/htmx.ts, with a
near-duplicate embedded copy in src/unnamed/part_000).  The module is a
thin adapter over an HTTP framework: a route-registration function `htmx`
derives an endpoint path from the SHA-1 hash of a handler function's
source text, deduplicates registrations in a map, generates a record of
`hx-*` markup attributes, and wraps request handling in a try/catch.

The embedding below models:
  * SHA-1 (the behaviour of Node's `createHash("sha1")`), byte-exact,
    operating on the UTF-8 bytes of the source string;
  * JavaScript objects as association lists with replace-or-append
    insertion (this is exactly how object literals and spreads build
    objects: own keys in insertion order, later values overriding);
  * the router as an explicit state (registry map plus the list of routes
    registered with the underlying server) threaded through calls;
  * request handling as a total function returning a response and a log,
    with thrown exceptions modelled by `Except`.
-/

set_option maxRecDepth 10000

/-- 32-bit truncation used throughout SHA-1: arithmetic is mod 2^32. -/
def w32 (x : Nat) : Nat := x % 4294967296

/-- Rotate a 32-bit word left by `n` bits. -/
def rotl (n : Nat) (x : Nat) : Nat :=
  w32 ((x <<< n) ||| (x >>> (32 - n)))

/-- Bitwise complement of a 32-bit word. -/
def wnot (x : Nat) : Nat := 4294967295 - x

/-- Big-endian bytes (most significant first) of `n`, `k` bytes wide. -/
def toBytesBE (k : Nat) (n : Nat) : List Nat :=
  (List.range k).map (fun i => (n >>> (8 * (k - 1 - i))) % 256)

/-- SHA-1 message padding: append 0x80, zero bytes to reach 56 mod 64,
then the 64-bit big-endian bit length.  The zero count is
`(-(len + 9)) mod 64`, written as `(119 - len % 64) % 64` so the
subtraction never truncates: lengths ≡ 56..63 (mod 64) get the extra
64-byte block they need. -/
def sha1Pad (msg : List Nat) : List Nat :=
  let len := msg.length
  let zeros := (119 - len % 64) % 64
  msg ++ [128] ++ List.replicate zeros 0 ++ toBytesBE 8 (len * 8)

/-- Group a byte list into 32-bit big-endian words. -/
def bytesToWords : List Nat → List Nat
  | a :: b :: c :: d :: rest =>
      (a * 16777216 + b * 65536 + c * 256 + d) :: bytesToWords rest
  | _ => []

/-- Split a list into chunks of 64 elements (fuel-driven structural
recursion so the kernel can evaluate it; `l.length` fuel always
suffices). -/
def chunksGo : Nat → List Nat → List (List Nat)
  | _, [] => []
  | 0, _ => []
  | fuel + 1, l@(_ :: _) => l.take 64 :: chunksGo fuel (l.drop 64)

/-- Split a list into chunks of 64 elements. -/
def chunks64 (l : List Nat) : List (List Nat) :=
  chunksGo l.length l

/-- Extend the 16-word message schedule to 80 words:
w[t] = rotl1 (w[t-3] xor w[t-8] xor w[t-14] xor w[t-16]). -/
def sha1Extend (fuel : Nat) (w : List Nat) : List Nat :=
  match fuel with
  | 0 => w
  | fuel + 1 =>
      let n := w.length
      let wt := rotl 1 (((w.getD (n - 3) 0) ^^^ (w.getD (n - 8) 0)) ^^^
                        ((w.getD (n - 14) 0) ^^^ (w.getD (n - 16) 0)))
      sha1Extend fuel (w ++ [wt])

/-- One SHA-1 round: state (a,b,c,d,e), round index `t`, schedule word `wt`. -/
def sha1Round (st : Nat × Nat × Nat × Nat × Nat) (t : Nat) (wt : Nat) :
    Nat × Nat × Nat × Nat × Nat :=
  let (a, b, c, d, e) := st
  let f :=
    if t < 20 then ((b &&& c) ||| ((wnot b) &&& d))
    else if t < 40 then (b ^^^ c) ^^^ d
    else if t < 60 then ((b &&& c) ||| (b &&& d)) ||| (c &&& d)
    else (b ^^^ c) ^^^ d
  let k :=
    if t < 20 then 1518500249
    else if t < 40 then 1859775393
    else if t < 60 then 2400959708
    else 3395469782
  let temp := w32 (rotl 5 a + f + e + k + wt)
  (temp, a, rotl 30 b, c, d)

/-- Process one 64-byte block, updating the five-word state. -/
def sha1Block (h : Nat × Nat × Nat × Nat × Nat) (block : List Nat) :
    Nat × Nat × Nat × Nat × Nat :=
  let w := sha1Extend 64 (bytesToWords block)
  let (h0, h1, h2, h3, h4) := h
  let (a, b, c, d, e) :=
    (List.zip (List.range 80) w).foldl (fun st p => sha1Round st p.1 p.2)
      (h0, h1, h2, h3, h4)
  (w32 (h0 + a), w32 (h1 + b), w32 (h2 + c), w32 (h3 + d), w32 (h4 + e))

/-- SHA-1 digest of a byte list, as the five 32-bit state words. -/
def sha1Words (msg : List Nat) : List Nat :=
  let res := (chunks64 (sha1Pad msg)).foldl sha1Block
    (1732584193, 4023233417, 2562383102, 271733878, 3285377520)
  let (h0, h1, h2, h3, h4) := res
  [h0, h1, h2, h3, h4]

/-- Lowercase hex digit for a nibble. -/
def hexDigit (n : Nat) : Char :=
  if n < 10 then Char.ofNat (48 + n) else Char.ofNat (87 + n)

/-- A 32-bit word as 8 lowercase hex characters. -/
def wordHex (w : Nat) : List Char :=
  (List.range 8).map (fun i => hexDigit ((w >>> (4 * (7 - i))) % 16))

/-- SHA-1 digest of a byte list as a 40-character lowercase hex string,
matching Node's `createHash("sha1").update(m).digest("hex")`. -/
def sha1Hex (msg : List Nat) : String :=
  ⟨(sha1Words msg).foldr (fun w acc => wordHex w ++ acc) []⟩

/-- UTF-8 encoding of one character (Node's default encoding for
`hash.update(string)`). -/
def utf8EncodeChar (c : Char) : List Nat :=
  let n := c.toNat
  if n < 128 then [n]
  else if n < 2048 then [192 ||| (n >>> 6), 128 ||| (n &&& 63)]
  else if n < 65536 then
    [224 ||| (n >>> 12), 128 ||| ((n >>> 6) &&& 63), 128 ||| (n &&& 63)]
  else
    [240 ||| (n >>> 18), 128 ||| ((n >>> 12) &&& 63),
     128 ||| ((n >>> 6) &&& 63), 128 ||| (n &&& 63)]

/-- UTF-8 bytes of a string. -/
def utf8Bytes (s : String) : List Nat :=
  s.data.foldr (fun c acc => utf8EncodeChar c ++ acc) []

/-- JavaScript `s.slice(0, n)`: the first `n` characters of a string
(identical to the UTF-16 semantics here because every string we slice is
ASCII hex output). -/
def jsSlice (s : String) (n : Nat) : String :=
  ⟨s.data.take n⟩

/-- JavaScript `s.slice(n)`: drop the first `n` characters. -/
def jsSliceFrom (s : String) (n : Nat) : String :=
  ⟨s.data.drop n⟩

/-- ASCII lower-casing of one character, as JavaScript `toLowerCase`
behaves on the ASCII option keys used here. -/
def jsCharLower (c : Char) : Char :=
  if 65 ≤ c.toNat ∧ c.toNat ≤ 90 then Char.ofNat (c.toNat + 32) else c

/-- JavaScript `s.toLowerCase()` restricted to the ASCII keys it is
applied to in the source. -/
def jsToLowerCase (s : String) : String :=
  ⟨s.data.map jsCharLower⟩

/-- The whitespace class of JavaScript regex `\s` and `String.trim`. -/
def isJsWhitespace (c : Char) : Bool :=
  c == ' ' || c == '\t' || c == '\n' || c == '\r' ||
  c.toNat == 11 || c.toNat == 12 || c.toNat == 160 || c.toNat == 5760 ||
  (8192 ≤ c.toNat && c.toNat ≤ 8202) || c.toNat == 8232 || c.toNat == 8233 ||
  c.toNat == 8239 || c.toNat == 8287 || c.toNat == 12288 || c.toNat == 65279

/-- JavaScript `s.trim()`. -/
def jsTrim (s : String) : String :=
  ⟨((s.data.dropWhile isJsWhitespace).reverse.dropWhile isJsWhitespace).reverse⟩

/-!  ## JavaScript objects

JavaScript objects are modelled as association lists built by
replace-or-append insertion: that is exactly how object literals and
spreads construct objects (own keys in insertion order, assigning to an
existing key keeps its position and overwrites its value). -/

/-- First-match lookup: property access on a JS object (keys built by
`objInsert` are unique, so first match is the match). -/
def lookupKey {α : Type} : List (String × α) → String → Option α
  | [], _ => none
  | (k, v) :: rest, key => if k = key then some v else lookupKey rest key

/-- JS property assignment `o[key] = v`: overwrite in place, else append. -/
def objInsert {α : Type} : List (String × α) → String → α → List (String × α)
  | [], key, v => [(key, v)]
  | (k, w) :: rest, key, v =>
      if k = key then (k, v) :: rest else (k, w) :: objInsert rest key v

/-- Assign every entry of `entries` into `o`, in order (the effect of
`{...o, ...entries}` continuing from `o`). -/
def objExtend {α : Type} (o : List (String × α)) (entries : List (String × α)) :
    List (String × α) :=
  entries.foldl (fun acc kv => objInsert acc kv.1 kv.2) o

/-- JS object spread `{...a, ...b}`. -/
def objSpread {α : Type} (a b : List (String × α)) : List (String × α) :=
  objExtend (objExtend [] a) b

/-- The value of the LAST entry for `key`, i.e. the value that survives
when the entries are assigned left to right. -/
def lastLookup {α : Type} : List (String × α) → String → Option α
  | [], _ => none
  | (k, v) :: rest, key =>
      match lastLookup rest key with
      | some w => some w
      | none => if k = key then some v else none

/-!  ## JSON values and `JSON.stringify`

`opts.vals` is a plain record; its values are modelled by a small JSON
value type (the claims do not depend on nesting).  `JSON.stringify`
applied to `undefined` yields the value `undefined`, not a string, which
the `Option String` result captures. -/

/-- A flat JSON value, enough for the `vals` records the adapter
serializes. -/
inductive JVal where
  | str (s : String)
  | num (n : Int)
  | bool (b : Bool)
  | null
deriving DecidableEq

/-- A JavaScript object with JSON values. -/
abbrev Obj := List (String × JVal)

/-- JSON string escaping as `JSON.stringify` performs it. -/
def jsonEscapeChar (c : Char) : List Char :=
  if c = '"' then ['\\', '"']
  else if c = '\\' then ['\\', '\\']
  else if c = '\n' then ['\\', 'n']
  else if c = '\t' then ['\\', 't']
  else if c = '\r' then ['\\', 'r']
  else if c.toNat = 8 then ['\\', 'b']
  else if c.toNat = 12 then ['\\', 'f']
  else if c.toNat < 32 then
    ['\\', 'u', '0', '0', hexDigit (c.toNat / 16), hexDigit (c.toNat % 16)]
  else [c]

/-- A JSON-quoted string literal. -/
def jsonQuote (s : String) : String :=
  ⟨'"' :: s.data.foldr (fun c acc => jsonEscapeChar c ++ acc) ['"']⟩

/-- Serialization of one JSON value. -/
def JVal.stringify : JVal → String
  | .str s => jsonQuote s
  | .num n => toString n
  | .bool b => if b then ("true") else ("false")
  | .null => ("null")

/-- `JSON.stringify` of a flat object. -/
def jsonStringifyObj (o : Obj) : String :=
  "\x7b" ++
    String.intercalate (",")
      (o.map (fun kv => jsonQuote kv.1 ++ ":" ++ JVal.stringify kv.2)) ++
  "\x7d"

/-- `JSON.stringify(opts.vals)`: `undefined` in, `undefined` out (`none`),
otherwise a JSON text. -/
def jsonStringifyOpt (v : Option Obj) : Option String :=
  match v with
  | none => none
  | some o => some (jsonStringifyObj o)

/-!  ## HTTP methods, swap strategies, event-handler option keys -/

/-- The HTTP method union of `HTMXRouteOptions.method` (already
uppercase, so `toUpperCase()` is the identity on it). -/
inductive Method where
  | GET | POST | PUT | DELETE | PATCH
deriving DecidableEq

/-- The method's lowercase spelling, as `method.toLowerCase()` yields. -/
def Method.lower : Method → String
  | .GET => ("get")
  | .POST => ("post")
  | .PUT => ("put")
  | .DELETE => ("delete")
  | .PATCH => ("patch")

/-- The `swap` strategy union of `HTMXRouteOptions.swap`. -/
inductive Swap where
  | innerHTML | outerHTML | beforebegin | afterbegin | beforeend | afterend
  | delete
deriving DecidableEq

/-- The swap strategy as the string it is spelled as in the source. -/
def Swap.str : Swap → String
  | .innerHTML => ("innerHTML")
  | .outerHTML => ("outerHTML")
  | .beforebegin => ("beforebegin")
  | .afterbegin => ("afterbegin")
  | .beforeend => ("beforeend")
  | .afterend => ("afterend")
  | .delete => ("delete")

/-- The event-handler option keys of `OnHandlers`. -/
inductive OnKey where
  | onClick | onChange | onSubmit | onMouseEnter | onMouseLeave | onInput
  | onFocus | onBlur | onKeyDown | onKeyUp | onMouseDown | onMouseUp
  | onBeforeRequest | onAfterRequest
deriving DecidableEq

/-- The TypeScript property name of an event-handler option key. -/
def OnKey.str : OnKey → String
  | .onClick => ("onClick")
  | .onChange => ("onChange")
  | .onSubmit => ("onSubmit")
  | .onMouseEnter => ("onMouseEnter")
  | .onMouseLeave => ("onMouseLeave")
  | .onInput => ("onInput")
  | .onFocus => ("onFocus")
  | .onBlur => ("onBlur")
  | .onKeyDown => ("onKeyDown")
  | .onKeyUp => ("onKeyUp")
  | .onMouseDown => ("onMouseDown")
  | .onMouseUp => ("onMouseUp")
  | .onBeforeRequest => ("onBeforeRequest")
  | .onAfterRequest => ("onAfterRequest")

/-- `convertToHXAttribute` from src/htmx.ts lines 39-48: the two HTMX
events map to `hx-on::` names, every other key maps to `hx-on:` plus the
key lowercased with its leading `on` sliced off. -/
def convertToHXAttribute (key : OnKey) : String :=
  match key with
  | .onBeforeRequest => ("hx-on::before-request")
  | .onAfterRequest => ("hx-on::after-request")
  | k => "hx-on:" ++ jsSliceFrom (jsToLowerCase k.str) 2


/-!  ## The wrapper-stripping regex replaces

`hxOnHandlers` turns each event-handler function into inline attribute
text via
`handler.toString().replace(A, "").replace(B, "").replace(C, "").trim()`
with `A = /^function\s*\([^)]*\)\s*{/`, `B = /^(?[^)]*\)?\s*=>\s*{/`
(with an optional opening paren), `C = /}$/`.  `A` and `B` are anchored
at the start, so replacing the (first) match by the empty string keeps
exactly the suffix after the match; `C` can only match the final
character.  The matchers below implement those patterns with JavaScript
greedy-with-backtracking semantics. -/

/-- Deterministic tail `\s*=>\s*{` of the arrow pattern (each `\s*` is
maximal since the required next character is not whitespace). -/
def arrowTail (cs : List Char) : Option (List Char) :=
  match cs.dropWhile isJsWhitespace with
  | '=' :: '>' :: rest =>
      match rest.dropWhile isJsWhitespace with
      | '{' :: rest2 => some rest2
      | _ => none
  | _ => none

/-- `\)?\s*=>\s*{`: the optional close paren is tried greedily first. -/
def arrowParenTail (cs : List Char) : Option (List Char) :=
  match cs with
  | ')' :: rest =>
      (match arrowTail rest with
       | some r => some r
       | none => arrowTail cs)
  | _ => arrowTail cs

/-- `[^)]*\)?\s*=>\s*{` with greedy backtracking: consume as many
non-`)` characters as possible, backing off one at a time. -/
def arrowStar : List Char → Option (List Char)
  | [] => arrowParenTail []
  | c :: rest =>
      if c = ')' then arrowParenTail (c :: rest)
      else
        match arrowStar rest with
        | some r => some r
        | none => arrowParenTail (c :: rest)

/-- The full anchored arrow pattern `^\(?[^)]*\)?\s*=>\s*{`: the leading
optional paren is tried greedily, falling back to not consuming it. -/
def matchArrowHeader (cs : List Char) : Option (List Char) :=
  match cs with
  | '(' :: rest =>
      (match arrowStar rest with
       | some r => some r
       | none => arrowStar cs)
  | _ => arrowStar cs

/-- The anchored pattern `^function\s*\([^)]*\)\s*{` (fully
deterministic: each greedy piece is followed by a required character it
cannot itself consume). -/
def matchFunctionHeader (cs : List Char) : Option (List Char) :=
  if cs.take 8 = ("function").data then
    match (cs.drop 8).dropWhile isJsWhitespace with
    | '(' :: rest =>
        (match rest.dropWhile (fun c => c != ')') with
         | ')' :: rest2 =>
             (match rest2.dropWhile isJsWhitespace with
              | '{' :: rest3 => some rest3
              | _ => none)
         | _ => none)
    | _ => none
  else none

/-- `s.replace(anchoredPattern, "")` for a pattern that can only match a
prefix: keep the remainder on a match, the whole string otherwise. -/
def replaceAnchored (matcher : List Char → Option (List Char))
    (cs : List Char) : List Char :=
  match matcher cs with
  | some r => r
  | none => cs

/-- The complete stripping pipeline applied to an event handler's source
text: strip a `function (...) {` wrapper, then an arrow `(...) => {`
wrapper, then a trailing `}`, then trim. -/
def stripFnSource (s : String) : String :=
  let cs1 := replaceAnchored matchFunctionHeader s.data
  let cs2 := replaceAnchored matchArrowHeader cs1
  let cs3 := if cs2.getLast? == some '\x7d' then cs2.dropLast else cs2
  jsTrim ⟨cs3⟩

/-!  ## Handlers, route options, the router state -/

/-- A route handler: its source text (`fn.toString()`) and its semantic
behaviour.  `run` maps the merged data record to either rendered HTML or
a thrown exception (it folds together `opts.handler({data, req, res})`
and `renderToStaticMarkup`, the two steps inside the `try`; the claims
never separate them, and neither `req` nor `res` influences any claim). -/
structure Handler where
  source : String
  run : Obj → Except String String

/-- `hashFn` from src/htmx.ts lines 115-120: the first 10 hex characters
of the SHA-1 digest of the function's source text. -/
def hashFn (fn : Handler) : String :=
  jsSlice (sha1Hex (utf8Bytes fn.source)) 10

/-- The endpoint path `` `${prefix}/${id}` `` built in the router. -/
def routePath (pfx : String) (fn : Handler) : String :=
  pfx ++ "/" ++ hashFn fn

/-- `HTMXRouteOptions`: the handler plus the optional settings the
claims depend on.  `onHandlers` lists the event-handler options that are
present, keyed by `OnKey`, with the function's source text as payload
(the `!handler` guard in the source can only drop absent entries,
which this list never contains).  `routeOptions` spreads extra Fastify
settings into the route and affects no claim, so it is omitted. -/
structure RouteOptions where
  handler : Handler
  method : Option Method
  target : Option String
  swap : Option Swap
  vals : Option Obj
  onHandlers : List (OnKey × String)

/-- A route registered with the underlying Fastify server: the method
and url passed to `app.route`, and the captured pieces of the generated
request handler (`opts.vals` and the handler behaviour). -/
structure ServerRoute where
  method : Method
  url : String
  vals : Option Obj
  run : Obj → Except String String

/-- The router's state: the deduplicating `routeRegistry` map and the
routes so far registered with the underlying server. -/
structure RouterState where
  registry : List (String × Handler)
  routes : List ServerRoute

/-- A router before any `htmx` call. -/
def emptyRouterState : RouterState := ⟨[], []⟩

/-- `Object.fromEntries` over the mapped event-handler entries: each
present entry becomes `(convertToHXAttribute key, strippedSource)`.
(`fromEntries` inserts the pairs in order; folding them directly into
the attribute object below reproduces that last-wins behaviour.) -/
def hxOnHandlers (hs : List (OnKey × String)) : List (String × String) :=
  hs.map (fun kv => (convertToHXAttribute kv.1, stripFnSource kv.2))

/-- The four fixed entries of the attribute object literal, in source
order: the computed trigger key `hx-<method>` mapping to the path, then
`hx-target`, `hx-swap`, `hx-vals`.  Values are `Option String` because
`JSON.stringify(undefined)` is the value `undefined`. -/
def hxAttributesBase (pfx : String) (opts : RouteOptions) : List (String × Option String) :=
  let method := opts.method.getD Method.POST
  let path := routePath pfx opts.handler
  objInsert
    (objInsert
      (objInsert
        (objInsert [] ("hx-" ++ method.lower) (some path))
        ("hx-target") (some (opts.target.getD ("body"))))
      ("hx-swap") (some ((opts.swap.getD Swap.innerHTML).str)))
    ("hx-vals") (jsonStringifyOpt opts.vals)

/-- The attribute record returned by the router (src/htmx.ts lines
201-233): the object literal's four fixed entries followed by the spread
of the `hx-on` entries. -/
def hxAttributes (pfx : String) (opts : RouteOptions) : List (String × Option String) :=
  objExtend (hxAttributesBase pfx opts)
    ((hxOnHandlers opts.onHandlers).map (fun kv => (kv.1, some kv.2)))

/-- One call of the route-registration function `htmx` (src/htmx.ts
lines 156-234): compute the method and content-hash path; if the path is
not yet in the registry, record it and register the route with the
underlying server; in every case return the generated attribute record.
-/
def htmx (pfx : String) (s : RouterState) (opts : RouteOptions) :
    List (String × Option String) × RouterState :=
  let method := opts.method.getD Method.POST
  let path := routePath pfx opts.handler
  let s2 :=
    if (lookupKey s.registry path).isSome then s
    else ⟨objInsert s.registry path opts.handler,
          s.routes ++ [⟨method, path, opts.vals, opts.handler.run⟩]⟩
  (hxAttributes pfx opts, s2)

/-- The merged data record built inside the generated endpoint handler:
`{...(opts.vals ?? {}), ...(req.body ?? {})}`. -/
def requestData (vals : Option Obj) (body : Option Obj) : Obj :=
  objSpread (vals.getD []) (body.getD [])

/-- An HTTP response as the generated handler produces it. -/
structure HttpResponse where
  status : Nat
  contentType : Option String
  body : String
deriving DecidableEq

/-- The generated endpoint handler (src/htmx.ts lines 177-197): merge
the data, invoke the handler and render; on success send the HTML with
`Content-Type: text/html` (status 200), on any thrown exception log it
and send a 500 `Server error`.  The second component is the error log.
-/
def handleRequest (r : ServerRoute) (body : Option Obj) :
    HttpResponse × List String :=
  match r.run (requestData r.vals body) with
  | .ok html => (⟨200, some ("text/html"), html⟩, [])
  | .error e => (⟨500, none, ("Server error")⟩, [("Handler error: ") ++ e])

/-!  ## Server startup -/

/-- The pieces of `HTMXRouterConfig` that `router.start` reads. -/
structure RouterConfig where
  port : Option Nat
  host : Option String

/-- What becomes of the process after `router.start`. -/
inductive StartOutcome where
  | listening (host : String) (port : Nat)
  | exited (code : Nat)
deriving DecidableEq

/-- `router.start` (src/htmx.ts lines 236-248): listen on the configured
host and port (defaults `localhost` and 3000); log success, or log the
failure and exit the process with code 1.  The environment's
`app.listen` outcome is the `listen` argument. -/
def routerStart (config : RouterConfig)
    (listen : String → Nat → Except String Unit) :
    StartOutcome × List String :=
  let port := config.port.getD 3000
  let host := config.host.getD ("localhost")
  match listen host port with
  | .ok _ =>
      (StartOutcome.listening host port,
       [("Server listening on http://") ++ host ++ ":" ++ toString port])
  | .error e =>
      (StartOutcome.exited 1, [("Error starting server: ") ++ e])

/-- The number of routes registered with the underlying server for a
given url. -/
def countUrl (routes : List ServerRoute) (path : String) : Nat :=
  (routes.filter (fun r => r.url == path)).length

/-- `optFallback a b` is `a` unless `a` is absent, then `b` (the shape of
JS defaulting in lookups). -/
def optFallback {α : Type} (a b : Option α) : Option α :=
  match a with
  | some v => some v
  | none => b

/-!  ## Concrete fixtures used by the witnesses -/

/-- A handler behaviour that renders successfully. -/
def exRun : Obj → Except String String := fun _ => Except.ok ("<div></div>")

/-- A handler behaviour that throws. -/
def exFailRun : Obj → Except String String := fun _ => Except.error ("boom")

/-- An arrow-function handler, spaced source text. -/
def exHandlerArrowSpace : Handler :=
  ⟨("(x) => \x7b return 1; \x7d"), exRun⟩

/-- A handler with the same source text as `exHandlerArrowSpace` but a
different (in fact failing) behaviour. -/
def exHandlerArrowSpace2 : Handler :=
  ⟨("(x) => \x7b return 1; \x7d"), exFailRun⟩

/-- A handler semantically identical to `exHandlerArrowSpace` whose
source text differs only in whitespace. -/
def exHandlerArrowTight : Handler :=
  ⟨("(x)=>\x7breturn 1;\x7d"), exRun⟩

/-- Route options with every optional setting omitted. -/
def exOptsPost : RouteOptions :=
  ⟨exHandlerArrowSpace, none, none, none, none, []⟩

/-- Route options for the same handler with an explicit GET method. -/
def exOptsGet : RouteOptions :=
  ⟨exHandlerArrowSpace, some Method.GET, none, none, none, []⟩

/-- Route options carrying one `onClick` event handler. -/
def exOptsOn : RouteOptions :=
  ⟨exHandlerArrowSpace, none, none, none, none,
   [(OnKey.onClick, ("(event) => \x7b alert(1); \x7d"))]⟩

/-- A registered route with a default value for key `a`. -/
def exRoute : ServerRoute :=
  ⟨Method.POST, ("/api/x"), some [(("a"), JVal.str ("1"))], exRun⟩

/-- A registered route whose handler throws on every request. -/
def exFailRoute : ServerRoute :=
  ⟨Method.POST, ("/api/y"), none, exFailRun⟩

/-- A router config with both settings omitted. -/
def exConfig : RouterConfig := ⟨none, none⟩

/-- An environment in which listening always fails. -/
def exFailListen : String → Nat → Except String Unit :=
  fun _ _ => Except.error ("EADDRINUSE")

/-!  ## Association-list lemmas -/

/-- Lookup after a JS property assignment: the assigned key reads the
new value, every other key is untouched (holds with no uniqueness
assumption because the first occurrence is the one replaced). -/
theorem lookupKey_objInsert {α : Type} (o : List (String × α)) (key k : String) (v : α) :
    lookupKey (objInsert o key v) k = if key = k then some v else lookupKey o k := by
  induction o with
  | nil => simp [objInsert, lookupKey]
  | cons hd tl ih =>
      obtain ⟨k2, v2⟩ := hd
      by_cases h1 : k2 = key
      · subst h1
        by_cases h2 : k2 = k <;> simp [objInsert, lookupKey, h2]
      · by_cases h2 : k2 = k
        · subst h2
          have h3 : ¬ key = k2 := fun h => h1 h.symm
          simp [objInsert, lookupKey, h1, h3]
        · simp [objInsert, lookupKey, h1, h2, ih]

/-- Assigning a list of entries in order: the last assignment to a key
wins, keys never assigned read from the base object. -/
theorem lookupKey_objExtend {α : Type} (l : List (String × α))
    (o : List (String × α)) (k : String) :
    lookupKey (objExtend o l) k = optFallback (lastLookup l k) (lookupKey o k) := by
  induction l generalizing o with
  | nil => simp [objExtend, lastLookup, optFallback]
  | cons hd tl ih =>
      obtain ⟨k2, v2⟩ := hd
      have step : objExtend o ((k2, v2) :: tl) = objExtend (objInsert o k2 v2) tl := rfl
      rw [step, ih, lookupKey_objInsert]
      simp only [lastLookup]
      cases h : lastLookup tl k with
      | some w => simp [optFallback]
      | none =>
          by_cases h2 : k2 = k <;> simp [optFallback, h2]

/-- A key assigned by no entry of `l` is absent from `lastLookup l`. -/
theorem lastLookup_eq_none {α : Type} (l : List (String × α)) (k : String)
    (h : ∀ kv ∈ l, kv.1 ≠ k) : lastLookup l k = none := by
  induction l with
  | nil => rfl
  | cons hd tl ih =>
      obtain ⟨k2, v2⟩ := hd
      have h2 : k2 ≠ k := h (k2, v2) (List.mem_cons_self _ _)
      have ih2 := ih (fun kv hkv => h kv (List.mem_cons_of_mem _ hkv))
      simp [lastLookup, ih2, h2]

/-- On an object with unique keys (every actual JS object), last-wins
lookup and first-match lookup agree. -/
theorem lastLookup_eq_lookupKey {α : Type} (l : List (String × α)) (k : String)
    (h : (l.map Prod.fst).Nodup) : lastLookup l k = lookupKey l k := by
  induction l with
  | nil => rfl
  | cons hd tl ih =>
      obtain ⟨k2, v2⟩ := hd
      simp only [List.map_cons, List.nodup_cons] at h
      by_cases h2 : k2 = k
      · subst h2
        have habs : lastLookup tl k2 = none := by
          apply lastLookup_eq_none
          intro kv hkv hk
          exact h.1 (hk ▸ List.mem_map_of_mem Prod.fst hkv)
        simp [lastLookup, lookupKey, habs]
      · rw [lookupKey, if_neg h2]
        rw [← ih h.2]
        simp only [lastLookup]
        cases lastLookup tl k <;> simp [h2]

/-- Lookup through a JS spread `{...a, ...b}`: the last entry of `b` for
the key wins, else the last entry of `a`. -/
theorem lookupKey_objSpread {α : Type} (a b : List (String × α)) (k : String) :
    lookupKey (objSpread a b) k = optFallback (lastLookup b k) (lastLookup a k) := by
  have hnil : lookupKey ([] : List (String × α)) k = none := rfl
  have hfb : ∀ x : Option α, optFallback x none = x := by
    intro x; cases x <;> rfl
  rw [objSpread, lookupKey_objExtend, lookupKey_objExtend, hnil, hfb]

/-!  ## Key-distinctness facts for the attribute record -/

/-- The computed trigger key `hx-<method>` collides with none of the
three fixed literal keys. -/
theorem trigger_key_ne (m : Method) :
    ("hx-" ++ m.lower) ≠ "hx-target" ∧ ("hx-" ++ m.lower) ≠ "hx-swap" ∧
    ("hx-" ++ m.lower) ≠ "hx-vals" := by
  cases m <;> exact ⟨by decide, by decide, by decide⟩

/-- An `hx-on` attribute name collides with none of the four leading
keys of the attribute object. -/
theorem onkey_attr_ne (k : OnKey) (m : Method) :
    convertToHXAttribute k ≠ ("hx-" ++ m.lower) ∧
    convertToHXAttribute k ≠ "hx-target" ∧
    convertToHXAttribute k ≠ "hx-swap" ∧
    convertToHXAttribute k ≠ "hx-vals" := by
  cases k <;> cases m <;> exact ⟨by decide, by decide, by decide, by decide⟩

/-- Distinct event-handler option keys map to distinct attribute names. -/
theorem convertToHXAttribute_injective (a b : OnKey)
    (h : convertToHXAttribute a = convertToHXAttribute b) : a = b := by
  cases a <;> cases b <;> first
    | rfl
    | exact absurd h (by decide)

/-!  ## Lookups in the generated attribute record -/

/-- The trigger entry of the base attribute object. -/
theorem lookupKey_base_trigger (pfx : String) (opts : RouteOptions) :
    lookupKey (hxAttributesBase pfx opts)
        ("hx-" ++ (opts.method.getD Method.POST).lower) =
      some (some (routePath pfx opts.handler)) := by
  simp only [hxAttributesBase]
  rw [lookupKey_objInsert, if_neg (Ne.symm (trigger_key_ne _).2.2),
      lookupKey_objInsert, if_neg (Ne.symm (trigger_key_ne _).2.1),
      lookupKey_objInsert, if_neg (Ne.symm (trigger_key_ne _).1),
      lookupKey_objInsert, if_pos rfl]

/-- The `hx-target` entry of the base attribute object. -/
theorem lookupKey_base_target (pfx : String) (opts : RouteOptions) :
    lookupKey (hxAttributesBase pfx opts) ("hx-target") =
      some (some (opts.target.getD ("body"))) := by
  simp only [hxAttributesBase]
  rw [lookupKey_objInsert, if_neg (by decide),
      lookupKey_objInsert, if_neg (by decide),
      lookupKey_objInsert, if_pos rfl]

/-- The `hx-swap` entry of the base attribute object. -/
theorem lookupKey_base_swap (pfx : String) (opts : RouteOptions) :
    lookupKey (hxAttributesBase pfx opts) ("hx-swap") =
      some (some ((opts.swap.getD Swap.innerHTML).str)) := by
  simp only [hxAttributesBase]
  rw [lookupKey_objInsert, if_neg (by decide),
      lookupKey_objInsert, if_pos rfl]

/-- The `hx-vals` entry of the base attribute object. -/
theorem lookupKey_base_vals (pfx : String) (opts : RouteOptions) :
    lookupKey (hxAttributesBase pfx opts) ("hx-vals") =
      some (jsonStringifyOpt opts.vals) := by
  simp only [hxAttributesBase]
  rw [lookupKey_objInsert, if_pos rfl]

/-- No `hx-on` entry assigns a key different from every
`convertToHXAttribute` image. -/
theorem lastLookup_onEntries_ne (hs : List (OnKey × String)) (k : String)
    (h : ∀ a : OnKey, convertToHXAttribute a ≠ k) :
    lastLookup ((hxOnHandlers hs).map (fun kv => (kv.1, some kv.2))) k = none := by
  apply lastLookup_eq_none
  intro kv hkv
  rcases List.mem_map.mp hkv with ⟨kv2, hkv2, rfl⟩
  rcases List.mem_map.mp hkv2 with ⟨ab, _, rfl⟩
  exact h ab.1

/-- A key that no `hx-on` entry can produce reads straight through the
spread to the base object. -/
theorem lookupKey_hxAttributes_fixed (pfx : String) (opts : RouteOptions)
    (k : String) (h : ∀ a : OnKey, convertToHXAttribute a ≠ k) :
    lookupKey (hxAttributes pfx opts) k = lookupKey (hxAttributesBase pfx opts) k := by
  unfold hxAttributes
  rw [lookupKey_objExtend, lastLookup_onEntries_ne _ _ h]
  rfl

/-!  ## Router state-transition lemmas -/

/-- The endpoint path depends only on the handler's source text. -/
theorem routePath_congr (pfx : String) (f g : Handler) (h : f.source = g.source) :
    routePath pfx f = routePath pfx g := by
  unfold routePath hashFn
  rw [h]

/-- A call whose path is not yet registered inserts it into the registry
and appends exactly one route to the underlying server. -/
theorem htmx_state_fresh (pfx : String) (s : RouterState) (opts : RouteOptions)
    (h : lookupKey s.registry (routePath pfx opts.handler) = none) :
    (htmx pfx s opts).2 =
      ⟨objInsert s.registry (routePath pfx opts.handler) opts.handler,
       s.routes ++ [⟨opts.method.getD Method.POST, routePath pfx opts.handler,
                     opts.vals, opts.handler.run⟩]⟩ := by
  unfold htmx
  simp [h]

/-- A call whose path is already registered leaves the state untouched. -/
theorem htmx_state_stale (pfx : String) (s : RouterState) (opts : RouteOptions)
    (h : (lookupKey s.registry (routePath pfx opts.handler)).isSome) :
    (htmx pfx s opts).2 = s := by
  unfold htmx
  simp [h]

/-- After any call, the call's path is in the registry. -/
theorem htmx_registry_has (pfx : String) (s : RouterState) (opts : RouteOptions) :
    (lookupKey ((htmx pfx s opts).2).registry (routePath pfx opts.handler)).isSome := by
  unfold htmx
  by_cases h : (lookupKey s.registry (routePath pfx opts.handler)).isSome
  · simp [h]
  · simp [h, lookupKey_objInsert]

/-- The attribute record returned by a call is a function of the prefix
and that call's options alone. -/
theorem htmx_attrs (pfx : String) (s : RouterState) (opts : RouteOptions) :
    (htmx pfx s opts).1 = hxAttributes pfx opts := rfl

/-- Route counting distributes over appending route lists. -/
theorem countUrl_append (a b : List ServerRoute) (p : String) :
    countUrl (a ++ b) p = countUrl a p + countUrl b p := by
  unfold countUrl
  rw [List.filter_append, List.length_append]

/-- A single route whose url is the counted path counts once. -/
theorem countUrl_single (r : ServerRoute) (p : String) (hp : r.url = p) :
    countUrl [r] p = 1 := by
  unfold countUrl
  simp [hp]

/-- A present event-handler entry (on an options object, whose keys are
unique) is found in the spread under its converted attribute name, with
its stripped source as value. -/
theorem lastLookup_onEntries_mem (hs : List (OnKey × String)) (k : OnKey) (src : String)
    (hnodup : (hs.map Prod.fst).Nodup) (hmem : (k, src) ∈ hs) :
    lastLookup ((hxOnHandlers hs).map (fun kv => (kv.1, some kv.2)))
        (convertToHXAttribute k) = some (some (stripFnSource src)) := by
  induction hs with
  | nil => cases hmem
  | cons hd tl ih =>
      obtain ⟨k2, src2⟩ := hd
      simp only [List.map_cons, List.nodup_cons] at hnodup
      simp only [hxOnHandlers, List.map_cons, lastLookup]
      rcases List.mem_cons.mp hmem with heq | hmem2
      · injection heq with hk hsrc
        subst hk
        subst hsrc
        have hnone :
            lastLookup ((hxOnHandlers tl).map (fun kv => (kv.1, some kv.2)))
              (convertToHXAttribute k) = none := by
          apply lastLookup_eq_none
          intro kv hkv
          rcases List.mem_map.mp hkv with ⟨kv2, hkv2, rfl⟩
          rcases List.mem_map.mp hkv2 with ⟨ab, hab, rfl⟩
          intro hconv
          have : ab.1 = k := convertToHXAttribute_injective ab.1 k hconv
          exact hnodup.1 (this ▸ List.mem_map_of_mem Prod.fst hab)
        simp only [hxOnHandlers] at hnone
        rw [hnone, if_pos rfl]
      · have := ih hnodup.2 hmem2
        simp only [hxOnHandlers] at this
        rw [this]

/-!  ## The claims -/

/-- C1: for every router, registering twice with handlers of identical
source text yields the same endpoint path both times, the second call
changes nothing, and across the two calls the underlying server gains
exactly one route at that path (the path being fresh at the start). -/
theorem C1_register_twice_dedup (pfx : String) (s0 : RouterState)
    (o1 o2 : RouteOptions)
    (hsrc : o1.handler.source = o2.handler.source)
    (hfresh : lookupKey s0.registry (routePath pfx o1.handler) = none) :
    routePath pfx o2.handler = routePath pfx o1.handler ∧
    (htmx pfx ((htmx pfx s0 o1).2) o2).2 = (htmx pfx s0 o1).2 ∧
    countUrl ((htmx pfx ((htmx pfx s0 o1).2) o2).2).routes (routePath pfx o1.handler) =
      countUrl s0.routes (routePath pfx o1.handler) + 1 := by
  have hpath : routePath pfx o2.handler = routePath pfx o1.handler :=
    routePath_congr pfx o2.handler o1.handler hsrc.symm
  have hs1 := htmx_state_fresh pfx s0 o1 hfresh
  have hhas : (lookupKey ((htmx pfx s0 o1).2).registry
      (routePath pfx o2.handler)).isSome := by
    rw [hpath]
    exact htmx_registry_has pfx s0 o1
  have hs2 : (htmx pfx ((htmx pfx s0 o1).2) o2).2 = (htmx pfx s0 o1).2 :=
    htmx_state_stale pfx _ o2 hhas
  refine ⟨hpath, hs2, ?_⟩
  rw [hs2, hs1]
  dsimp only
  rw [countUrl_append, countUrl_single _ _ rfl]

/-- C1 witness: two concrete calls with the same handler source on a
fresh router. -/
theorem C1_witness :
    routePath ("/api") exOptsGet.handler = routePath ("/api") exOptsPost.handler ∧
    (htmx ("/api") ((htmx ("/api") emptyRouterState exOptsPost).2) exOptsGet).2 =
      (htmx ("/api") emptyRouterState exOptsPost).2 ∧
    countUrl ((htmx ("/api") ((htmx ("/api") emptyRouterState exOptsPost).2) exOptsGet).2).routes
        (routePath ("/api") exOptsPost.handler) =
      countUrl emptyRouterState.routes (routePath ("/api") exOptsPost.handler) + 1 :=
  C1_register_twice_dedup ("/api") emptyRouterState exOptsPost exOptsGet rfl rfl

/-- C2: the data record handed to the handler is the spread merge of the
configured defaults with the request body, and for every key the request
body's value wins when present (on actual JS objects, i.e. unique keys);
the handler is invoked on exactly that record. -/
theorem C2_merge_request_wins (r : ServerRoute) (body : Option Obj)
    (hv : ((r.vals.getD []).map Prod.fst).Nodup)
    (hb : ((body.getD []).map Prod.fst).Nodup) :
    (∀ k : String, lookupKey (requestData r.vals body) k =
        optFallback (lookupKey (body.getD []) k) (lookupKey (r.vals.getD []) k)) ∧
    (∀ h : String, r.run (requestData r.vals body) = Except.ok h →
        handleRequest r body = (⟨200, some ("text/html"), h⟩, [])) := by
  constructor
  · intro k
    unfold requestData
    rw [lookupKey_objSpread, lastLookup_eq_lookupKey _ _ hb,
        lastLookup_eq_lookupKey _ _ hv]
  · intro h hok
    unfold handleRequest
    rw [hok]

/-- C2 witness: a key present in both the defaults and the body reads
the body's value. -/
theorem C2_witness :
    lookupKey (requestData exRoute.vals (some [(("a"), JVal.str ("2"))])) ("a") =
      optFallback (lookupKey [(("a"), JVal.str ("2"))] ("a"))
        (lookupKey [(("a"), JVal.str ("1"))] ("a")) :=
  (C2_merge_request_wins exRoute (some [(("a"), JVal.str ("2"))])
    (by decide) (by decide)).1 ("a")

/-- C3: every attribute record contains the trigger attribute
`hx-<method>` valued at the generated path, `hx-target` valued at the
configured target or `body`, and `hx-swap` valued at the configured swap
strategy or `innerHTML`. -/
theorem C3_attribute_record (pfx : String) (opts : RouteOptions) :
    lookupKey (hxAttributes pfx opts)
        ("hx-" ++ (opts.method.getD Method.POST).lower) =
      some (some (routePath pfx opts.handler)) ∧
    lookupKey (hxAttributes pfx opts) ("hx-target") =
      some (some (opts.target.getD ("body"))) ∧
    lookupKey (hxAttributes pfx opts) ("hx-swap") =
      some (some ((opts.swap.getD Swap.innerHTML).str)) := by
  refine ⟨?_, ?_, ?_⟩
  · rw [lookupKey_hxAttributes_fixed _ _ _ (fun a => (onkey_attr_ne a _).1),
        lookupKey_base_trigger]
  · rw [lookupKey_hxAttributes_fixed _ _ _
        (fun a => (onkey_attr_ne a Method.GET).2.1), lookupKey_base_target]
  · rw [lookupKey_hxAttributes_fixed _ _ _
        (fun a => (onkey_attr_ne a Method.GET).2.2.1), lookupKey_base_swap]

/-- C4: a thrown exception anywhere inside the generated handler's try
block is logged and becomes a 500 `Server error` response; the handler
itself always produces a response (200 or that 500). -/
theorem C4_exceptions_become_500 (r : ServerRoute) (body : Option Obj) :
    (∀ e : String, r.run (requestData r.vals body) = Except.error e →
        handleRequest r body =
          (⟨500, none, ("Server error")⟩, [("Handler error: ") ++ e])) ∧
    ((handleRequest r body).1.status = 200 ∨
      (handleRequest r body).1 = ⟨500, none, ("Server error")⟩) := by
  constructor
  · intro e he
    unfold handleRequest
    rw [he]
  · unfold handleRequest
    cases r.run (requestData r.vals body) with
    | ok h => left; rfl
    | error e => right; rfl

/-- C4 witness: a throwing handler yields the logged 500 response. -/
theorem C4_witness :
    handleRequest exFailRoute none =
      (⟨500, none, ("Server error")⟩, [("Handler error: ") ++ ("boom")]) :=
  (C4_exceptions_become_500 exFailRoute none).1 ("boom") rfl

/-- C5: if listening fails, `router.start` logs the failure and the
process exits with code 1; on success the server listens on the
configured port (default 3000) and host (default `localhost`). -/
theorem C5_start_failure_exits (config : RouterConfig)
    (listen : String → Nat → Except String Unit) :
    (∀ e : String,
        listen (config.host.getD ("localhost")) (config.port.getD 3000) =
          Except.error e →
        routerStart config listen =
          (StartOutcome.exited 1, [("Error starting server: ") ++ e])) ∧
    (listen (config.host.getD ("localhost")) (config.port.getD 3000) =
        Except.ok () →
      routerStart config listen =
        (StartOutcome.listening (config.host.getD ("localhost"))
            (config.port.getD 3000),
         [("Server listening on http://") ++ config.host.getD ("localhost") ++
          ":" ++ toString (config.port.getD 3000)])) := by
  constructor
  · intro e he
    simp only [routerStart]
    rw [he]
  · intro hok
    simp only [routerStart]
    rw [hok]

/-- C5 witness: a failing listen on a default config exits with 1. -/
theorem C5_witness :
    routerStart exConfig exFailListen =
      (StartOutcome.exited 1, [("Error starting server: ") ++ ("EADDRINUSE")]) :=
  (C5_start_failure_exits exConfig exFailListen).1 ("EADDRINUSE") rfl

/-- C6: the endpoint path is a deterministic function of the handler's
source text and is exactly the prefix, a slash, and the first 10 hex
characters of the SHA-1 digest of that text; and two semantically
identical handlers differing only in whitespace get different paths. -/
theorem C6_path_content_hash (pfx : String) :
    (∀ f g : Handler, f.source = g.source → routePath pfx f = routePath pfx g) ∧
    (∀ f : Handler,
        routePath pfx f = pfx ++ "/" ++ jsSlice (sha1Hex (utf8Bytes f.source)) 10) ∧
    (∃ f g : Handler, f.run = g.run ∧ f.source ≠ g.source ∧
        routePath pfx f ≠ routePath pfx g) := by
  refine ⟨fun f g h => routePath_congr pfx f g h, fun f => rfl, ?_⟩
  refine ⟨exHandlerArrowSpace, exHandlerArrowTight, rfl, by decide, ?_⟩
  intro h
  have hd := congrArg String.data h
  rw [routePath, routePath, String.data_append, String.data_append] at hd
  have hcancel := List.append_cancel_left hd
  have hne : (hashFn exHandlerArrowSpace).data ≠ (hashFn exHandlerArrowTight).data := by
    decide
  exact hne hcancel

/-- C6 witness: two structurally different handler values with the same
source text are routed to the same path. -/
theorem C6_witness :
    routePath ("/api") exHandlerArrowSpace = routePath ("/api") exHandlerArrowSpace2 :=
  (C6_path_content_hash ("/api")).1 exHandlerArrowSpace exHandlerArrowSpace2 rfl

/-- C7 counterexample: the same handler (hence the same content hash and
the same path) registered through two fresh routers ends up under GET in
one and POST in the other, so the endpoint's HTTP method is not
determined by the content hash. -/
theorem C7_counterexample :
    (htmx ("/api") emptyRouterState exOptsGet).2.routes.map ServerRoute.url =
      (htmx ("/api") emptyRouterState exOptsPost).2.routes.map ServerRoute.url ∧
    (htmx ("/api") emptyRouterState exOptsGet).2.routes.map ServerRoute.method =
      [Method.GET] ∧
    (htmx ("/api") emptyRouterState exOptsPost).2.routes.map ServerRoute.method =
      [Method.POST] ∧
    exOptsGet.handler = exOptsPost.handler := by
  exact ⟨rfl, rfl, rfl, rfl⟩

/-- C7 amended: the auto-registered endpoint's path is determined by the
content hash of the handler (prefix, slash, first 10 hex characters of
the SHA-1 of its source), while its HTTP method comes from the
registering call's options (`opts.method`, default POST). -/
theorem C7_amended_method_from_options (pfx : String) (s : RouterState)
    (opts : RouteOptions)
    (hfresh : lookupKey s.registry (routePath pfx opts.handler) = none) :
    ∃ r : ServerRoute, (htmx pfx s opts).2.routes = s.routes ++ [r] ∧
      r.url = pfx ++ "/" ++ jsSlice (sha1Hex (utf8Bytes opts.handler.source)) 10 ∧
      r.method = opts.method.getD Method.POST := by
  refine ⟨⟨opts.method.getD Method.POST, routePath pfx opts.handler,
           opts.vals, opts.handler.run⟩, ?_, rfl, rfl⟩
  rw [htmx_state_fresh pfx s opts hfresh]

/-- C7 witness for the amended statement: a fresh default-method call
registers one POST route at the hash path. -/
theorem C7_witness :
    ∃ r : ServerRoute,
      (htmx ("/api") emptyRouterState exOptsPost).2.routes =
        emptyRouterState.routes ++ [r] ∧
      r.url = ("/api") ++ "/" ++
        jsSlice (sha1Hex (utf8Bytes exOptsPost.handler.source)) 10 ∧
      r.method = exOptsPost.method.getD Method.POST :=
  C7_amended_method_from_options ("/api") emptyRouterState exOptsPost rfl

/-- C8: with `opts.vals` omitted the returned record still contains the
key `hx-vals`, and its value is `JSON.stringify(undefined)`, i.e. the
non-string value `undefined` (`none`), despite the declared
`Record<string, string>` return type. -/
theorem C8_hx_vals_undefined (pfx : String) (opts : RouteOptions)
    (h : opts.vals = none) :
    lookupKey (hxAttributes pfx opts) ("hx-vals") = some none := by
  rw [lookupKey_hxAttributes_fixed _ _ _
        (fun a => (onkey_attr_ne a Method.GET).2.2.2),
      lookupKey_base_vals, h]
  rfl

/-- C8 witness: the default options carry `hx-vals ↦ undefined`. -/
theorem C8_witness :
    lookupKey (hxAttributes ("/api") exOptsPost) ("hx-vals") = some none :=
  C8_hx_vals_undefined ("/api") exOptsPost rfl

/-- C9: a second call whose handler source hashes to a registered path
leaves the registry and the server's routes unchanged, returns an
attribute record computed from the second call's options alone, and when
the second call's method differs (on a router where the path was fresh
and new), its `hx-<method>` trigger names the path under a method the
server never registered it with. -/
theorem C9_second_call_frame (pfx : String) (s0 : RouterState)
    (o1 o2 : RouteOptions) (hsrc : o2.handler.source = o1.handler.source) :
    (htmx pfx ((htmx pfx s0 o1).2) o2).2 = (htmx pfx s0 o1).2 ∧
    (htmx pfx ((htmx pfx s0 o1).2) o2).1 = hxAttributes pfx o2 ∧
    (lookupKey s0.registry (routePath pfx o1.handler) = none →
     (∀ r ∈ s0.routes, r.url ≠ routePath pfx o1.handler) →
     o2.method.getD Method.POST ≠ o1.method.getD Method.POST →
     (∀ r ∈ ((htmx pfx ((htmx pfx s0 o1).2) o2).2).routes,
        ¬(r.method = o2.method.getD Method.POST ∧
          r.url = routePath pfx o2.handler)) ∧
     lookupKey (hxAttributes pfx o2)
         ("hx-" ++ (o2.method.getD Method.POST).lower) =
       some (some (routePath pfx o2.handler))) := by
  have hpath : routePath pfx o2.handler = routePath pfx o1.handler :=
    routePath_congr pfx o2.handler o1.handler hsrc
  have hstale : (htmx pfx ((htmx pfx s0 o1).2) o2).2 = (htmx pfx s0 o1).2 :=
    htmx_state_stale pfx _ o2 (by rw [hpath]; exact htmx_registry_has pfx s0 o1)
  refine ⟨hstale, rfl, fun hfresh hnew hm => ⟨?_, ?_⟩⟩
  · intro r hr hcontra
    rw [hstale, htmx_state_fresh pfx s0 o1 hfresh] at hr
    dsimp only at hr
    rcases List.mem_append.mp hr with h0 | h1
    · exact hnew r h0 (hpath ▸ hcontra.2)
    · rcases List.mem_singleton.mp h1 with rfl
      exact hm hcontra.1.symm
  · rw [lookupKey_hxAttributes_fixed _ _ _ (fun a => (onkey_attr_ne a _).1),
        lookupKey_base_trigger]

/-- C9 witness: after POST-then-GET registration of the same handler, no
GET route exists at the path the returned `hx-get` attribute names. -/
theorem C9_witness :
    (∀ r ∈ ((htmx ("/api") ((htmx ("/api") emptyRouterState exOptsPost).2)
        exOptsGet).2).routes,
      ¬(r.method = Method.GET ∧ r.url = routePath ("/api") exOptsGet.handler)) ∧
    lookupKey (hxAttributes ("/api") exOptsGet) ("hx-" ++ Method.GET.lower) =
      some (some (routePath ("/api") exOptsGet.handler)) :=
  (C9_second_call_frame ("/api") emptyRouterState exOptsPost exOptsGet rfl).2.2
    rfl (fun r hr => absurd hr (List.not_mem_nil r)) (by decide)

/-- C10: every supplied event-handler option appears in the attribute
record under its converted name (`hx-on::before-request` and
`hx-on::after-request` for the two HTMX events, otherwise `hx-on:` plus
the key lowercased with the leading `on` removed, e.g. `onMouseEnter` to
`hx-on:mouseenter`), valued at the handler's source with the
function/arrow wrapper and trailing brace stripped and trimmed. -/
theorem C10_event_handler_attributes (pfx : String) (opts : RouteOptions)
    (k : OnKey) (src : String)
    (hnodup : (opts.onHandlers.map Prod.fst).Nodup)
    (hmem : (k, src) ∈ opts.onHandlers) :
    lookupKey (hxAttributes pfx opts) (convertToHXAttribute k) =
      some (some (stripFnSource src)) ∧
    convertToHXAttribute OnKey.onBeforeRequest = "hx-on::before-request" ∧
    convertToHXAttribute OnKey.onAfterRequest = "hx-on::after-request" ∧
    convertToHXAttribute OnKey.onMouseEnter = "hx-on:mouseenter" ∧
    (∀ a : OnKey, a ≠ OnKey.onBeforeRequest → a ≠ OnKey.onAfterRequest →
        convertToHXAttribute a =
          "hx-on:" ++ jsSliceFrom (jsToLowerCase (OnKey.str a)) 2) := by
  refine ⟨?_, rfl, rfl, by decide, ?_⟩
  · unfold hxAttributes
    rw [lookupKey_objExtend,
        lastLookup_onEntries_mem opts.onHandlers k src hnodup hmem]
    rfl
  · intro a h1 h2
    cases a <;> first
      | rfl
      | exact absurd rfl h1
      | exact absurd rfl h2

/-- C10 witness: a concrete `onClick` option appears as `hx-on:click`
with its stripped body. -/
theorem C10_witness :
    lookupKey (hxAttributes ("/api") exOptsOn) (convertToHXAttribute OnKey.onClick) =
      some (some (stripFnSource ("(event) => \x7b alert(1); \x7d"))) :=
  (C10_event_handler_attributes ("/api") exOptsOn OnKey.onClick
    ("(event) => \x7b alert(1); \x7d") (by decide) (by decide)).1
